import Mathlib

/-!
Verification of the flagger-k6-webhook launch-handling subsystem.

This development shallowly embeds the Go code of the repository:
the launch payload validation (`pkg/handlers/launch.go` / `validate`),
the cloud-URL extraction (`getCloudURL` with `outputRegex`),
the secret-reference environment resolution (`buildEnvVars`),
the retry-after estimation (`getWaitTime`),
the readiness polling (`waitForOutputPath`),
the cancellation propagation (`propagateCancel`),
and the per-request state machine (`singleRequestHandler.Handle` in
`pkg/handlers/single_request.go`) together with the admission gate and
process reaper of the launch handler.

Go machine details are modelled as follows: `time.Duration` values and
timestamps are natural numbers of nanoseconds; byte buffers are `String`s
sampled at the points where the handler reads them; outcomes of external
collaborators (JSON decoding, the kubernetes secret store, the k6 process)
are oracle fields of the environment record; a Go runtime panic is `none`.
-/

namespace Flagger

/-- One nanosecond-denominated second, as in Go's `time.Second`. -/
def second : Nat := 1000000000

/-- Go's `time.Minute` in nanoseconds. -/
def minute : Nat := 60 * second

/-! ## List/string helpers (Go `strings` package behaviors) -/

/-- Whether `p` is a prefix of `s`, on character lists. -/
def isPrefixChars : List Char → List Char → Bool
  | [], _ => true
  | _ :: _, [] => false
  | c :: cs, d :: ds => c = d && isPrefixChars cs ds

/-- Go's `strings.Contains s pat`: `pat` occurs as a substring of `s`. -/
def containsSub (pat : List Char) : List Char → Bool
  | [] => isPrefixChars pat []
  | c :: t => isPrefixChars pat (c :: t) || containsSub pat t

/-- `strings.Contains` on `String`s. -/
def goContains (s pat : String) : Bool :=
  containsSub pat.data s.data

/-- Consume the literal `lit` from the front of `s`, returning the rest. -/
def expectLit : List Char → List Char → Option (List Char)
  | [], s => some s
  | _ :: _, [] => none
  | c :: cs, d :: ds => if d = c then expectLit cs ds else none

/-- Maximal leading run of decimal digits, and the rest (greedy `\d*`). -/
def digitSpan : List Char → List Char × List Char
  | [] => ([], [])
  | c :: t =>
    if c.isDigit then
      let r := digitSpan t
      (c :: r.1, r.2)
    else ([], c :: t)

/-- Maximal leading run of non-`'/'` characters, and the rest (greedy `[^/]*`). -/
def nonSlashSpan : List Char → List Char × List Char
  | [] => ([], [])
  | c :: t =>
    if c = '/' then ([], c :: t)
    else
      let r := nonSlashSpan t
      (c :: r.1, r.2)

/-- Split at the first `'/'`: the part before it and the part after it. -/
def breakSlash : List Char → Option (List Char × List Char)
  | [] => none
  | c :: t =>
    if c = '/' then some ([], t)
    else
      match breakSlash t with
      | none => none
      | some (a, b) => some (c :: a, b)

/-- Go's `strings.SplitN (· , "/", k+1)`: split on `'/'` consuming at most
`k` separators, never returning an empty list. -/
def splitSlashN (s : List Char) : Nat → List (List Char)
  | 0 => [s]
  | k + 1 =>
    match breakSlash s with
    | none => [s]
    | some (a, b) => a :: splitSlashN b k

/-- Go map read: first binding of `k` in an association list. -/
def listGet {α : Type} (m : List (String × α)) (k : String) : Option α :=
  match m with
  | [] => none
  | (k1, v) :: t => if k1 = k then some v else listGet t k

/-- Go map write: replace the binding of `k`, or append it. -/
def listSet {α : Type} (m : List (String × α)) (k : String) (v : α) : List (String × α) :=
  match m with
  | [] => [(k, v)]
  | (k1, v1) :: t => if k1 = k then (k1, v) :: t else (k1, v1) :: listSet t k v

/-! ## Cloud URL extraction

The Go source compiles
`output: cloud \((?P<url>https:\/\/((app\.k6\.io)|([^/]+\.grafana.net\/a\/k6-app))\/runs\/\d+)\)`
(`outputRegex` in `pkg/handlers/launch.go`) and `getCloudURL` returns the
`url` capture of `FindStringSubmatch`, which is the leftmost-first match.
The dot in `.net` is unescaped in the source and therefore matches any
character except a newline. The embedding below implements exactly that
pattern with leftmost-first alternation and greedy repetition. -/

/-- Match `/runs/` followed by at least one digit, with a `)` lookahead;
returns the matched `/runs/<digits>` text. -/
def matchRunsTail (s : List Char) : Option (List Char) :=
  match expectLit ("/runs/".data) s with
  | none => none
  | some s1 =>
    let dr := digitSpan s1
    match dr.1, dr.2 with
    | [], _ => none
    | ds, ')' :: _ => some ("/runs/".data ++ ds)
    | _ :: _, _ => none

/-- First alternative of the host group: the literal `app.k6.io`. -/
def matchHostA (s : List Char) : Option (List Char) :=
  match expectLit ("app.k6.io".data) s with
  | none => none
  | some s1 =>
    match matchRunsTail s1 with
    | none => none
    | some t => some ("app.k6.io".data ++ t)

/-- After the `[^/]+` part of the second alternative: the literal `.grafana`,
one arbitrary non-newline character (the unescaped dot of the source
pattern), then `net/a/k6-app` and the `/runs/<digits>)` tail. -/
def matchGrafanaTail (s : List Char) : Option (List Char) :=
  match expectLit (".grafana".data) s with
  | none => none
  | some s1 =>
    match s1 with
    | [] => none
    | c :: s2 =>
      if c = '\n' then none
      else
        match expectLit ("net/a/k6-app".data) s2 with
        | none => none
        | some s3 =>
          match matchRunsTail s3 with
          | none => none
          | some t => some (".grafana".data ++ c :: "net/a/k6-app".data ++ t)

/-- Backtracking loop for the greedy `[^/]+`: `xRev` is the current
candidate (reversed); longer candidates are tried first, and a character is
given back to the input on each failure. The candidate must stay nonempty. -/
def hostBLoop : List Char → List Char → Option (List Char)
  | [], _ => none
  | c :: xRev, rest =>
    match matchGrafanaTail rest with
    | some t => some ((c :: xRev).reverse ++ t)
    | none => hostBLoop xRev (c :: rest)

/-- Second alternative of the host group: `[^/]+\.grafana.net\/a\/k6-app`. -/
def matchHostB (s : List Char) : Option (List Char) :=
  let sp := nonSlashSpan s
  hostBLoop sp.1.reverse sp.2

/-- Attempt the full pattern at the current position; returns the `url`
capture group on success. The first alternative is preferred, as in
leftmost-first matching. -/
def matchAt (s : List Char) : Option (List Char) :=
  match expectLit ("output: cloud (https://".data) s with
  | none => none
  | some s1 =>
    match matchHostA s1 with
    | some t => some ("https://".data ++ t)
    | none =>
      match matchHostB s1 with
      | some t => some ("https://".data ++ t)
      | none => none

/-- Leftmost match: try every start position from the left. -/
def findCloudURLAux : List Char → Option (List Char)
  | [] => none
  | c :: t =>
    match matchAt (c :: t) with
    | some u => some u
    | none => findCloudURLAux t

/-- `getCloudURL` from `pkg/handlers/single_request.go`: the `url` capture
of the leftmost match, or the fixed error text. -/
def getCloudURL (output : String) : Except String String :=
  match findCloudURLAux output.data with
  | none => Except.error "couldn't find the cloud URL in the output"
  | some u => Except.ok (String.mk u)

/-! ## Launch payload and its validation (`pkg/handlers/launch.go`) -/

/-- Go's `strconv.ParseBool`, exactly the accepted spellings. -/
def goParseBool (s : String) : Option Bool :=
  match s with
  | "1" | "t" | "T" | "true" | "TRUE" | "True" => some true
  | "0" | "f" | "F" | "false" | "FALSE" | "False" => some false
  | _ => none

/-- The textual metadata fields of a decoded launch payload, before
`validate` runs (the `...String` fields of `launchPayload.Metadata`). -/
structure RawMetadata where
  script : String
  uploadToCloudString : String
  waitForResultsString : String
  slackChannelsString : String
  notificationContext : String
  minFailureDelayString : String
  envVarsString : String
  kubernetesSecretsString : String

/-- The resolved metadata fields after `validate` has populated them.
`minFailureDelay` is in nanoseconds; `envVars` and `kubernetesSecrets`
model the Go maps as association lists (Go `nil` maps as `[]`). -/
structure Metadata where
  script : String
  uploadToCloud : Bool
  waitForResults : Bool
  slackChannels : List String
  notificationContext : String
  minFailureDelay : Nat
  envVars : List (String × String)
  kubernetesSecrets : List (String × String)
deriving DecidableEq

/-- A validated launch payload: the flagger webhook identity triple plus
the resolved metadata. -/
structure Payload where
  name : String
  nspace : String
  phase : String
  metadata : Metadata
deriving DecidableEq

/-- `launchPayload.key`: the run key `namespace-name-phase`. -/
def key (p : Payload) : String :=
  p.nspace ++ "-" ++ p.name ++ "-" ++ p.phase

/-- Emoji used on success messages. -/
def emojiSuccess : String := ":large_green_circle:"

/-- Emoji used on the started message. -/
def emojiWarning : String := ":warning:"

/-- Emoji used on failure messages. -/
def emojiFailure : String := ":red_circle:"

/-- `launchPayload.statusMessage`. -/
def statusMessage (p : Payload) (emoji status : String) : String :=
  emoji ++ " Load testing of `" ++ p.name ++ "` in namespace `" ++ p.nspace ++ "` " ++ status

/-- `launchPayload.validate`, parameterized by the Go standard library
parsers it calls: `pd` is `time.ParseDuration` (nanosecond result) and
`pm` is `json.Unmarshal` into a string-to-string map. `strconv.ParseBool`
is small enough to be embedded exactly (`goParseBool`). -/
def validate (pd : String → Except String Nat)
    (pm : String → Except String (List (String × String)))
    (raw : RawMetadata) : Except String Metadata :=
  if raw.script = "" then Except.error "missing script"
  else
    match (if raw.uploadToCloudString = "" then some false
           else goParseBool raw.uploadToCloudString) with
    | none =>
      Except.error ("error parsing value for 'upload_to_cloud': strconv.ParseBool: parsing \"" ++
        raw.uploadToCloudString ++ "\": invalid syntax")
    | some upload =>
      match (if raw.waitForResultsString = "" then some true
             else goParseBool raw.waitForResultsString) with
      | none =>
        Except.error ("error parsing value for 'wait_for_results': strconv.ParseBool: parsing \"" ++
          raw.waitForResultsString ++ "\": invalid syntax")
      | some wait =>
        let channels :=
          if raw.slackChannelsString = "" then []
          else raw.slackChannelsString.splitOn ","
        match (if raw.minFailureDelayString = "" then Except.ok (2 * minute)
               else pd raw.minFailureDelayString) with
        | Except.error e =>
          Except.error ("error parsing value for 'min_failure_delay': " ++ e)
        | Except.ok delay =>
          match (if raw.envVarsString = "" then Except.ok []
                 else pm raw.envVarsString) with
          | Except.error e =>
            Except.error ("error parsing value for 'env_vars': " ++ e)
          | Except.ok envVars =>
            match (if raw.kubernetesSecretsString = "" then Except.ok []
                   else pm raw.kubernetesSecretsString) with
            | Except.error e =>
              Except.error ("error parsing value for 'kubernetes_secrets': " ++ e)
            | Except.ok secrets =>
              Except.ok {
                script := raw.script
                uploadToCloud := upload
                waitForResults := wait
                slackChannels := channels
                notificationContext := raw.notificationContext
                minFailureDelay := delay
                envVars := envVars
                kubernetesSecrets := secrets }

/-! ## Environment / secret resolution (`buildEnvVars`) -/

/-- The kubernetes secret store collaborator: namespace and secret name to
either an error or the secret's keyed data map. -/
def SecretStore : Type := String → String → Except String (List (String × String))

/-- The `parts := strings.SplitN(secret, "/", 3)` block of `buildEnvVars`:
namespace (defaulted to the payload namespace), secret name and secret key.
`none` models the Go runtime panic on `parts[1]` when the reference
contains no `/` at all. -/
def parseSecretRef (pns : String) (v : String) : Option (String × String × String) :=
  match splitSlashN v.data 2 with
  | [a, b, c] => some (String.mk a, String.mk b, String.mk c)
  | [a, b] => some (pns, String.mk a, String.mk b)
  | _ => none

/-- An observable side effect of a request, in program order. -/
inductive Event where
  | acquire
  | releaseSync
  | releaseAsync
  | memoWrite (k : String) (t : Nat)
  | secretLookup (ns name : String)
  | startCall
  | sleep (d : Nat)
  | slackSend (text ctx : String)
  | slackFile (name content : String)
  | slackUpdate (text ctx : String)
  | respond (status : Nat) (body : String)
  | waitProc
  | record (durSeconds : Nat) (exitCode : Int)
  | setCancel
  | cleanupCallback
  | register
deriving DecidableEq

/-- Number of occurrences of an event in a trace. -/
def countEvent (e : Event) : List Event → Nat
  | [] => 0
  | x :: t => (if x = e then 1 else 0) + countEvent e t

/-- The loop body of `buildEnvVars`, iterating the `kubernetes_secrets`
entries (Go map iteration modelled as association-list order). Returns
`none` on the out-of-range panic; otherwise the resolution outcome and the
secret lookups performed. -/
def buildEnvVarsLoop (st : SecretStore) (pns : String) (acc : List (String × String)) :
    List (String × String) → Option (Except String (List (String × String)) × List Event)
  | [] => some (Except.ok acc, [])
  | (env, ref) :: rest =>
    match parseSecretRef pns ref with
    | none => none
    | some (ns, name, skey) =>
      match st ns name with
      | Except.error e =>
        some (Except.error ("error fetching secret " ++ ns ++ "/" ++ name ++ ": " ++ e),
          [Event.secretLookup ns name])
      | Except.ok data =>
        match listGet data skey with
        | none =>
          some (Except.error ("secret " ++ ns ++ "/" ++ name ++ " does not have key " ++ skey),
            [Event.secretLookup ns name])
        | some v =>
          match buildEnvVarsLoop st pns (listSet acc env v) rest with
          | none => none
          | some (r, evs) => some (r, Event.secretLookup ns name :: evs)

/-- `buildEnvVars` from `pkg/handlers/single_request.go`: direct env vars
merged with resolved secret references; errors if secrets are requested
without a configured kubernetes client; `none` models the panic of
`parseSecretRef`. -/
def buildEnvVars (store : Option SecretStore) (pns : String) (md : Metadata) :
    Option (Except String (List (String × String)) × List Event) :=
  if md.kubernetesSecrets.isEmpty then some (Except.ok md.envVars, [])
  else
    match store with
    | none => some (Except.error "kubernetes client is not configured", [])
    | some st => buildEnvVarsLoop st pns md.envVars md.kubernetesSecrets

/-! ## Wait time estimation (`getWaitTime`, `unnamed/part_019`) -/

/-- One quantile entry of a gathered prometheus summary metric. -/
structure SummaryQuantile where
  quantile : ℚ
  value : Int
deriving DecidableEq

/-- One gathered metric family: its name and, per child metric, the list
of summary quantiles. -/
structure MetricFamily where
  name : String
  metrics : List (List SummaryQuantile)
deriving DecidableEq

/-- First 0.5-quantile value in a metric's quantile list. -/
def findMedianInQuantiles : List SummaryQuantile → Option Int
  | [] => none
  | q :: t => if q.quantile = (1 : ℚ) / 2 then some q.value else findMedianInQuantiles t

/-- First 0.5-quantile value over a family's metrics. -/
def findMedianInMetrics : List (List SummaryQuantile) → Option Int
  | [] => none
  | m :: t =>
    match findMedianInQuantiles m with
    | some v => some v
    | none => findMedianInMetrics t

/-- Scan the gathered families for `launch_test_duration` and its
0.5-quantile. -/
def findMedian : List MetricFamily → Option Int
  | [] => none
  | f :: t =>
    match (if f.name = "launch_test_duration" then findMedianInMetrics f.metrics else none) with
    | some v => some v
    | none => findMedian t

/-- `getWaitTime`: the 0.5-quantile of the gathered `launch_test_duration`
summary, in whole seconds, or 60 when the gather fails (`none`) or no such
quantile is present. -/
def getWaitTime (gather : Option (List MetricFamily)) : Int :=
  match gather with
  | none => 60
  | some fams =>
    match findMedian fams with
    | some v => v
    | none => 60

/-! ## The per-request state machine (`singleRequestHandler.Handle`) -/

/-- What the handler observes about a started k6 process. -/
structure K6RunInfo where
  execDuration : Nat
  exitCode : Int
  waitErr : Option String
deriving DecidableEq

/-- The HTTP response produced for a request. -/
structure HttpResponse where
  status : Nat
  body : String
  retryAfter : Option Int
deriving DecidableEq

/-- Which terminal branch of the per-request state machine was taken. -/
inductive Branch where
  | rejected429
  | validationError
  | memoHit
  | resolutionError
  | launchError
  | readinessTimeout
  | cloudURLError
  | runFailure
  | successSync
  | successAsync
deriving DecidableEq

/-- The oracle environment of one request: the state of the shared gate
and memo table when it arrives, and the outcomes of all external
interactions it may perform. `bufAtCheck i` is the output buffer content
at the `i`-th readiness check; `bufEarly` is its content at the reads
between a successful start and `Wait`; `bufLate` at the reads after
`Wait`. -/
structure HandleEnv where
  permits : Nat
  gather : Option (List MetricFamily)
  parseResult : Except String Payload
  now : Nat
  memo : List (String × Nat)
  store : Option SecretStore
  startResult : Except String K6RunInfo
  bufAtCheck : Nat → String
  bufEarly : String
  bufLate : String

/-- The observable outcome of one request: response, side-effect trace,
final memo table, gate count after the synchronous part, number of handles
handed to the reaper, whether a permit was acquired, and the branch. -/
structure HandleRes where
  resp : HttpResponse
  events : List Event
  memo : List (String × Nat)
  gateAfter : Nat
  registered : Nat
  acquired : Bool
  branch : Branch

/-- Modelled from the spec: `launchHandler.requestTestRun`, the
non-blocking acquire on the `availableTestRuns` channel. The current
`launch.go` is not among the source files (only `single_request.go`,
`launch_test.go` and the earlier revision `unnamed/part_019`, whose
`ServeHTTP` contains the same `select`/`default` acquire); §4.1 of the
spec fixes it as `tryAcquire() -> success|AtCapacity`. -/
def requestTestRunModel (permits : Nat) : Option Nat :=
  if permits = 0 then none else some (permits - 1)

/-- Modelled from the spec: `launchHandler.releaseTestRun`, returning a
permit to the `availableTestRuns` channel (§4.1 `release()`; in
`unnamed/part_019` this is `availableTestRuns <- struct{}{}`). -/
def releaseTestRunModel (permits : Nat) : Nat := permits + 1

/-- `trackExecutionDuration` (`unnamed/part_019`): observe the execution
duration in whole seconds labeled by exit code, but only when the duration
is nonzero. -/
def trackExecutionDurationModel (run : K6RunInfo) : List Event :=
  if run.execDuration ≠ 0 then [Event.record (run.execDuration / second) run.exitCode] else []

/-- Modelled from the spec: the current `launchHandler.waitForProcess` is
not among the source files (the earlier revision in `unnamed/part_019`
lacks the cancellation callback step, and `single_request.go` attaches the
callback via `SetCancelFunc` for the reaper to invoke). §4.2 of the spec
fixes the order on a handle's completion: record duration and exit code,
invoke the attached cancellation callback (`CleanupContext` in
`pkg/k6/cmd.go`), then release the admission permit. -/
def waitForProcessModel (run : K6RunInfo) : List Event :=
  [Event.waitProc] ++ trackExecutionDurationModel run ++
    [Event.cleanupCallback, Event.releaseAsync]

/-- `waitForOutputPath` loop (`single_request.go`): up to `fuel` checks of
the buffer for the readiness marker `output:`, sleeping 2 seconds after
each failed check. Returns whether the marker was found and the sleep
trace. -/
def waitForOutputPathAux (bufAtCheck : Nat → String) : Nat → Nat → Bool × List Event
  | _, 0 => (false, [])
  | i, fuel + 1 =>
    if goContains (bufAtCheck i) "output:" then (true, [])
    else
      let r := waitForOutputPathAux bufAtCheck (i + 1) fuel
      (r.1, Event.sleep (2 * second) :: r.2)

/-- `waitForOutputPath`: ten checks starting from the first sample. -/
def waitForOutputPathModel (bufAtCheck : Nat → String) : Bool × List Event :=
  waitForOutputPathAux bufAtCheck 0 10

/-- `attachCloudURL` (`single_request.go`): on upload runs, extend the
slack context with the extracted cloud URL. -/
def attachCloudURL (uploadToCloud : Bool) (slackContext : String) (buf : String) :
    Except String String :=
  if uploadToCloud then
    match getCloudURL buf with
    | Except.error e => Except.error e
    | Except.ok url => Except.ok (slackContext ++ "\nCloud URL: <" ++ url ++ ">")
  else Except.ok slackContext

/-- `failRequest` (`single_request.go`): record the failure time for the
run key, respond 400 with the error text (plus the captured output after a
newline when nonempty; `http.Error` itself appends a final newline), and
release the permit synchronously unless cleanup was handed to the reaper. -/
def failRequestModel (env : HandleEnv) (p : Payload) (msg buf : String) (asyncCleanup : Bool)
    (evs : List Event) (g registered : Nat) (branch : Branch) : HandleRes :=
  let m := if buf = "" then msg else msg ++ "\n" ++ buf
  let body := m ++ "\n"
  { resp := { status := 400, body := body, retryAfter := none }
    events := evs ++ [Event.memoWrite (key p) env.now, Event.respond 400 body] ++
      (if asyncCleanup then [] else [Event.releaseSync])
    memo := listSet env.memo (key p) env.now
    gateAfter := if asyncCleanup then g else releaseTestRunModel g
    registered := registered
    acquired := true
    branch := branch }

/-- `singleRequestHandler.Handle` (`pkg/handlers/single_request.go`): the
full per-request state machine, from admission to response. `none` models
a Go runtime panic (only reachable through `buildEnvVars`). The admission
wrappers `requestTestRun`/`releaseTestRun` are the spec-modelled gate
operations above. -/
def handleModel (env : HandleEnv) : Option HandleRes :=
  match requestTestRunModel env.permits with
  | none =>
    some {
      resp := { status := 429, body := "Maximum concurrent test runs reached\n",
                retryAfter := some (getWaitTime env.gather) }
      events := [Event.respond 429 "Maximum concurrent test runs reached\n"]
      memo := env.memo
      gateAfter := env.permits
      registered := 0
      acquired := false
      branch := Branch.rejected429 }
  | some g =>
    match env.parseResult with
    | Except.error e =>
      let body := "error while validating request: " ++ e ++ "\n"
      some {
        resp := { status := 400, body := body, retryAfter := none }
        events := [Event.acquire, Event.respond 400 body, Event.releaseSync]
        memo := env.memo
        gateAfter := releaseTestRunModel g
        registered := 0
        acquired := true
        branch := Branch.validationError }
    | Except.ok p =>
      if (match listGet env.memo (key p) with
          | some t => decide (env.now - t < p.metadata.minFailureDelay)
          | none => false) then
        some (failRequestModel env p "not enough time since last failure" "" false
          [Event.acquire] g 0 Branch.memoHit)
      else
        match buildEnvVars env.store p.nspace p.metadata with
        | none => none
        | some (Except.error e, lookupEvs) =>
          some (failRequestModel env p e "" false
            ([Event.acquire] ++ lookupEvs) g 0 Branch.resolutionError)
        | some (Except.ok _, lookupEvs) =>
          match env.startResult with
          | Except.error e =>
            some (failRequestModel env p ("error while launching test: " ++ e) "" false
              ([Event.acquire] ++ lookupEvs ++ [Event.startCall]) g 0 Branch.launchError)
          | Except.ok run =>
            let poll := waitForOutputPathModel env.bufAtCheck
            let pre := [Event.acquire] ++ lookupEvs ++ [Event.startCall] ++ poll.2
            if poll.1 = false then
              some (failRequestModel env p "error while waiting for test to start: timeout"
                env.bufEarly true
                (pre ++ [Event.slackSend (statusMessage p emojiFailure "didn't start successfully")
                           p.metadata.notificationContext,
                         Event.slackFile "k6-results.txt" env.bufEarly,
                         Event.register])
                g 1 Branch.readinessTimeout)
            else
              match attachCloudURL p.metadata.uploadToCloud p.metadata.notificationContext
                  env.bufEarly with
              | Except.error e =>
                let base := failRequestModel env p e env.bufEarly false pre g 1
                  Branch.cloudURLError
                some { base with events := base.events ++ [Event.register] }
              | Except.ok slackCtx =>
                let started := pre ++
                  [Event.slackSend (statusMessage p emojiWarning "has started") slackCtx]
                if p.metadata.waitForResults = false then
                  some {
                    resp := { status := 200, body := "", retryAfter := none }
                    events := started ++ [Event.setCancel, Event.register]
                    memo := env.memo
                    gateAfter := g
                    registered := 1
                    acquired := true
                    branch := Branch.successAsync }
                else
                  let waited := started ++ [Event.waitProc] ++ trackExecutionDurationModel run ++
                    [Event.slackFile "k6-results.txt" env.bufLate]
                  match run.waitErr with
                  | some werr =>
                    let msg := "failed to run: " ++ werr
                    let m := if env.bufLate = "" then msg else msg ++ "\n" ++ env.bufLate
                    let body := m ++ "\n"
                    some {
                      resp := { status := 400, body := body, retryAfter := none }
                      events := waited ++
                        [Event.slackUpdate (statusMessage p emojiFailure "has failed") slackCtx,
                         Event.releaseSync,
                         Event.memoWrite (key p) env.now, Event.respond 400 body]
                      memo := listSet env.memo (key p) env.now
                      gateAfter := releaseTestRunModel g
                      registered := 0
                      acquired := true
                      branch := Branch.runFailure }
                  | none =>
                    some {
                      resp := { status := 200, body := env.bufLate, retryAfter := none }
                      events := waited ++
                        [Event.slackUpdate (statusMessage p emojiSuccess "has succeeded") slackCtx,
                         Event.respond 200 env.bufLate, Event.releaseSync]
                      memo := env.memo
                      gateAfter := releaseTestRunModel g
                      registered := 0
                      acquired := true
                      branch := Branch.successSync }

/-- `propagateCancel` (`single_request.go`): whether the per-run
cancellation scope is (eventually) cancelled by the watcher, as a function
of the wait-for-results flag and of whether the inbound request context
and the global shutdown context are (eventually) done. -/
def propagateCancelFires (waitForResults reqDone globalDone : Bool) : Bool :=
  if waitForResults then reqDone || globalDone else globalDone

/-! ## Concrete sample inputs used by witnesses -/

/-- A minimal resolved metadata record. -/
def mdSample : Metadata where
  script := "s"
  uploadToCloud := false
  waitForResults := true
  slackChannels := []
  notificationContext := "ctx"
  minFailureDelay := 2 * minute
  envVars := []
  kubernetesSecrets := []

/-- A minimal validated payload. -/
def pSample : Payload where
  name := "hello"
  nspace := "default"
  phase := "pre-rollout"
  metadata := mdSample

/-- A one-minute successful run. -/
def runSample : K6RunInfo where
  execDuration := 60 * second
  exitCode := 0
  waitErr := none

/-- A benign request environment: one permit, a valid payload, no secrets,
a successful start, and a buffer that immediately shows the readiness
marker. -/
def envSample : HandleEnv where
  permits := 1
  gather := none
  parseResult := Except.ok pSample
  now := 5
  memo := []
  store := none
  startResult := Except.ok runSample
  bufAtCheck := fun _ => "output: x"
  bufEarly := "early"
  bufLate := "late"

/-- A saturated-gate environment. -/
def envFull : HandleEnv := { envSample with permits := 0, gather := some [] }

/-- The outcome of `envSample`: a synchronous success. -/
def resSample : HandleRes where
  resp := { status := 200, body := "late", retryAfter := none }
  events := [Event.acquire, Event.startCall,
    Event.slackSend (statusMessage pSample emojiWarning "has started") "ctx",
    Event.waitProc, Event.record 60 0, Event.slackFile "k6-results.txt" "late",
    Event.slackUpdate (statusMessage pSample emojiSuccess "has succeeded") "ctx",
    Event.respond 200 "late", Event.releaseSync]
  memo := []
  gateAfter := 1
  registered := 0
  acquired := true
  branch := Branch.successSync

/-- An environment whose k6 launch fails. -/
def envLaunchFail : HandleEnv := { envSample with startResult := Except.error "boom" }

/-- The outcome of `envLaunchFail`: a launch-error 400. -/
def resLaunchFail : HandleRes where
  resp := { status := 400, body := "error while launching test: boom\n", retryAfter := none }
  events := [Event.acquire, Event.startCall,
    Event.memoWrite (key pSample) 5,
    Event.respond 400 "error while launching test: boom\n", Event.releaseSync]
  memo := [(key pSample, 5)]
  gateAfter := 1
  registered := 0
  acquired := true
  branch := Branch.launchError

/-- A retry of the same run key one nanosecond after the failure recorded
by `envLaunchFail`. -/
def envRetry : HandleEnv := { envSample with memo := [(key pSample, 5)], now := 6 }

/-- An environment whose buffer never shows the readiness marker. -/
def envNeverReady : HandleEnv :=
  { envSample with bufAtCheck := fun _ => "", bufEarly := "" }

/-- An environment whose payload fails validation. -/
def envParseErr : HandleEnv := { envSample with parseResult := Except.error "bad" }

/-- A duration parser that always fails. -/
def pdErr : String → Except String Nat := fun _ => Except.error "bad duration"

/-- A map parser that always fails. -/
def pmErr : String → Except String (List (String × String)) := fun _ => Except.error "bad json"

/-- Raw metadata with every optional field textually absent. -/
def rawDefaults : RawMetadata where
  script := "s"
  uploadToCloudString := ""
  waitForResultsString := ""
  slackChannelsString := ""
  notificationContext := "c"
  minFailureDelayString := ""
  envVarsString := ""
  kubernetesSecretsString := ""

/-- Raw metadata with an unparseable `upload_to_cloud`. -/
def rawBadUpload : RawMetadata := { rawDefaults with uploadToCloudString := "zz" }

/-! ## Helper lemmas -/

/-- Writing a key makes it readable: `listGet` after `listSet`. -/
theorem listGet_listSet {α : Type} (m : List (String × α)) (k : String) (v : α) :
    listGet (listSet m k v) k = some v := by
  induction m with
  | nil => simp [listGet, listSet]
  | cons hd t ih =>
    obtain ⟨k1, v1⟩ := hd
    by_cases hk : k1 = k
    · simp [listGet, listSet, hk]
    · simp [listGet, listSet, hk, ih]

/-- `breakSlash` finds nothing in a slash-free list. -/
theorem breakSlash_eq_none (l : List Char) (h : ('/' : Char) ∉ l) : breakSlash l = none := by
  induction l with
  | nil => rfl
  | cons c t ih =>
    have hc : c ≠ '/' := fun hc => h (hc ▸ List.mem_cons_self c t)
    have ht : ('/' : Char) ∉ t := fun ht => h (List.mem_cons_of_mem c ht)
    simp [breakSlash, hc, ih ht]

/-- Counting events distributes over concatenation. -/
theorem countEvent_append (e : Event) (a b : List Event) :
    countEvent e (a ++ b) = countEvent e a + countEvent e b := by
  induction a with
  | nil => simp [countEvent]
  | cons x t ih => simp [countEvent, ih]; ring

/-- A trace free of an event counts zero of it. -/
theorem countEvent_eq_zero (e : Event) (l : List Event) (h : ∀ x ∈ l, x ≠ e) :
    countEvent e l = 0 := by
  induction l with
  | nil => rfl
  | cons x t ih =>
    have hx := h x (List.mem_cons_self x t)
    simp [countEvent, hx, ih fun y hy => h y (List.mem_cons_of_mem x hy)]

/-- The secret-resolution loop only ever emits secret lookups. -/
theorem buildEnvVarsLoop_events (st : SecretStore) (pns : String) :
    ∀ (l : List (String × String)) (acc : List (String × String))
      (res : Except String (List (String × String))) (evs : List Event),
      buildEnvVarsLoop st pns acc l = some (res, evs) →
      ∀ e ∈ evs, ∃ ns n, e = Event.secretLookup ns n := by
  intro l
  induction l with
  | nil =>
    intro acc res evs h e he
    simp [buildEnvVarsLoop] at h
    obtain ⟨h1, h2⟩ := h
    subst h2
    simp at he
  | cons hd t ih =>
    intro acc res evs h e he
    obtain ⟨envName, ref⟩ := hd
    simp only [buildEnvVarsLoop] at h
    split at h
    · exact absurd h (by simp)
    · split at h
      · simp at h
        obtain ⟨h1, h2⟩ := h
        subst h2
        simp at he
        exact ⟨_, _, he⟩
      · split at h
        · simp at h
          obtain ⟨h1, h2⟩ := h
          subst h2
          simp at he
          exact ⟨_, _, he⟩
        · split at h
          · exact absurd h (by simp)
          · rename_i hrec
            simp at h
            obtain ⟨h1, h2⟩ := h
            subst h2
            rcases List.mem_cons.mp he with he1 | he1
            · exact ⟨_, _, he1⟩
            · exact ih _ _ _ hrec e he1

/-- Environment resolution only ever emits secret lookups. -/
theorem buildEnvVars_events (store : Option SecretStore) (pns : String) (md : Metadata)
    (res : Except String (List (String × String))) (evs : List Event)
    (h : buildEnvVars store pns md = some (res, evs)) :
    ∀ e ∈ evs, ∃ ns n, e = Event.secretLookup ns n := by
  simp only [buildEnvVars] at h
  split at h
  · simp at h
    obtain ⟨h1, h2⟩ := h
    subst h2
    simp
  · split at h
    · simp at h
      obtain ⟨h1, h2⟩ := h
      subst h2
      simp
    · exact buildEnvVarsLoop_events _ pns _ _ _ _ h

/-- The readiness poll only ever emits sleeps. -/
theorem waitForOutputPathAux_events (b : Nat → String) :
    ∀ (fuel i : Nat) (e : Event), e ∈ (waitForOutputPathAux b i fuel).2 →
      e = Event.sleep (2 * second) := by
  intro fuel
  induction fuel with
  | zero => intro i e he; simp [waitForOutputPathAux] at he
  | succ f ih =>
    intro i e he
    simp only [waitForOutputPathAux] at he
    split at he
    · simp at he
    · simp at he
      rcases he with he | he
      · exact he
      · exact ih _ _ he

/-- No synchronous permit release hides among secret lookups. -/
theorem countEvent_releaseSync_lookups (store : Option SecretStore) (pns : String)
    (md : Metadata) (res : Except String (List (String × String))) (evs : List Event)
    (h : buildEnvVars store pns md = some (res, evs)) :
    countEvent Event.releaseSync evs = 0 := by
  refine countEvent_eq_zero _ _ fun x hx => ?_
  obtain ⟨ns, n, rfl⟩ := buildEnvVars_events store pns md res evs h x hx
  simp

/-- No synchronous permit release hides among readiness sleeps. -/
theorem countEvent_releaseSync_sleeps (b : Nat → String) :
    countEvent Event.releaseSync (waitForOutputPathModel b).2 = 0 := by
  refine countEvent_eq_zero _ _ fun x hx => ?_
  rw [waitForOutputPathAux_events b 10 0 x hx]
  simp

/-- A readiness poll that never sees the marker fails after exactly ten
checks with a two-second sleep after each. -/
theorem waitForOutputPathAux_never (b : Nat → String) :
    ∀ (fuel i : Nat), (∀ j, j < fuel → goContains (b (i + j)) "output:" = false) →
      waitForOutputPathAux b i fuel = (false, List.replicate fuel (Event.sleep (2 * second))) := by
  intro fuel
  induction fuel with
  | zero => intro i _; rfl
  | succ f ih =>
    intro i h
    have h0 : goContains (b i) "output:" = false := by
      have := h 0 (Nat.succ_pos f)
      simpa using this
    have hrec := ih (i + 1) fun j hj => by
      have := h (j + 1) (Nat.succ_lt_succ hj)
      simpa [Nat.add_assoc, Nat.add_comm 1 j] using this
    simp [waitForOutputPathAux, h0, hrec, List.replicate_succ]

/-- Every 400 response for a parsed payload stamps the run key with the
current time, and the memo write precedes the response in the trace. -/
theorem memo_after_parsed_400 (env : HandleEnv) (p : Payload) (r : HandleRes)
    (h : handleModel env = some r) (hp : env.parseResult = Except.ok p)
    (h400 : r.resp.status = 400) :
    r.memo = listSet env.memo (key p) env.now ∧
    (∃ l1 l2 l3 b, r.events =
      l1 ++ Event.memoWrite (key p) env.now :: (l2 ++ Event.respond 400 b :: l3)) := by
  simp only [handleModel, hp] at h
  split at h
  · simp only [Option.some.injEq] at h
    subst h
    simp at h400
  · rename_i g hg
    split at h
    · -- memo hit
      simp only [failRequestModel, Option.some.injEq] at h
      subst h
      refine ⟨by simp, [Event.acquire], [], [Event.releaseSync],
        "not enough time since last failure" ++ "\n", by simp⟩
    · split at h
      · exact absurd h (by simp)
      · rename_i e lookupEvs heq
        simp only [failRequestModel, Option.some.injEq] at h
        subst h
        refine ⟨by simp, Event.acquire :: lookupEvs, [],
          [Event.releaseSync], e ++ "\n", by simp⟩
      · rename_i v lookupEvs heq
        split at h
        · -- launch error
          rename_i e hstart
          simp only [failRequestModel, Option.some.injEq] at h
          subst h
          refine ⟨by simp,
            Event.acquire :: (lookupEvs ++ [Event.startCall]), [], [Event.releaseSync],
            "error while launching test: " ++ e ++ "\n", by simp⟩
        · rename_i run hrun
          split at h
          · -- readiness timeout
            simp only [failRequestModel, Option.some.injEq] at h
            subst h
            refine ⟨by simp,
              Event.acquire :: (lookupEvs ++ Event.startCall ::
                ((waitForOutputPathModel env.bufAtCheck).2 ++
                  [Event.slackSend (statusMessage p emojiFailure "didn't start successfully")
                     p.metadata.notificationContext,
                   Event.slackFile "k6-results.txt" env.bufEarly, Event.register])), [], [],
              (if env.bufEarly = "" then "error while waiting for test to start: timeout"
               else "error while waiting for test to start: timeout" ++ "\n" ++ env.bufEarly) ++
                "\n", by simp⟩
          · split at h
            · -- cloud URL error
              rename_i e hcloud
              simp only [failRequestModel, Option.some.injEq] at h
              subst h
              refine ⟨by simp,
                Event.acquire :: (lookupEvs ++ Event.startCall ::
                  (waitForOutputPathModel env.bufAtCheck).2), [],
                [Event.releaseSync, Event.register],
                (if env.bufEarly = "" then e else e ++ "\n" ++ env.bufEarly) ++ "\n", by simp⟩
            · rename_i slackCtx hctx
              split at h
              · -- success async: 200
                simp only [Option.some.injEq] at h
                subst h
                simp at h400
              · split at h
                · -- run failure
                  rename_i werr hwerr
                  simp only [Option.some.injEq] at h
                  subst h
                  refine ⟨by simp,
                    Event.acquire :: (lookupEvs ++ Event.startCall ::
                      ((waitForOutputPathModel env.bufAtCheck).2 ++
                        Event.slackSend (statusMessage p emojiWarning "has started") slackCtx ::
                          Event.waitProc :: (trackExecutionDurationModel run ++
                            [Event.slackFile "k6-results.txt" env.bufLate,
                             Event.slackUpdate (statusMessage p emojiFailure "has failed")
                               slackCtx,
                             Event.releaseSync]))), [], [],
                    (if env.bufLate = "" then "failed to run: " ++ werr
                     else "failed to run: " ++ werr ++ "\n" ++ env.bufLate) ++ "\n", by simp⟩
                · -- success sync: 200
                  simp only [Option.some.injEq] at h
                  subst h
                  simp at h400

/-- `matchAt` succeeds on the canonical cloud line whatever follows the
closing parenthesis. -/
theorem matchAt_canonical (q : List Char) :
    matchAt ("output: cloud (https://app.k6.io/runs/1157843)".data ++ q) =
      some ("https://app.k6.io/runs/1157843".data) := rfl

/-- The leftmost scan skips a region in which no position matches. -/
theorem findCloudURLAux_append (p s : List Char)
    (h : ∀ i, i < p.length → matchAt (List.drop i (p ++ s)) = none) :
    findCloudURLAux (p ++ s) = findCloudURLAux s := by
  induction p with
  | nil => simp
  | cons c t ih =>
    have h0 : matchAt (c :: (t ++ s)) = none := by
      have := h 0 (Nat.succ_pos _)
      simpa using this
    have step : findCloudURLAux ((c :: t) ++ s) = findCloudURLAux (t ++ s) := by
      simp [findCloudURLAux, h0]
    rw [step]
    exact ih fun i hi => by
      have := h (i + 1) (Nat.succ_lt_succ hi)
      simpa using this

/-! ## Claim theorems -/

/-- Claim C5: the process scope is cancelled whenever the global shutdown
context fires; with `wait_for_results` true it is additionally cancelled
when the inbound request's context is done; with `wait_for_results` false,
the request context being done alone never cancels it. All combinations of
the three signals relevant to the claim, enumerated. -/
theorem C5_cancellation_composition :
    propagateCancelFires true true true = true ∧
    propagateCancelFires true false true = true ∧
    propagateCancelFires false true true = true ∧
    propagateCancelFires false false true = true ∧
    propagateCancelFires true true false = true ∧
    propagateCancelFires false true false = false := by
  decide

/-- Claim C6: a reaped handle's completion triggers exactly three side
effects in order: the duration/exit-code observation, the attached
cancellation callback, then the permit release (for any handle whose
execution duration is nonzero, which holds for every process that actually
ran, since `trackExecutionDuration` skips the observation on a zero
duration). -/
theorem C6_reaper_completion_order (run : K6RunInfo) (h : run.execDuration ≠ 0) :
    waitForProcessModel run =
      [Event.waitProc, Event.record (run.execDuration / second) run.exitCode,
       Event.cleanupCallback, Event.releaseAsync] := by
  simp [waitForProcessModel, trackExecutionDurationModel, h]

/-- Witness for C6 at a one-second run. -/
theorem C6_reaper_completion_order_witness :
    waitForProcessModel { execDuration := second, exitCode := 0, waitErr := none } =
      [Event.waitProc, Event.record (second / second) 0,
       Event.cleanupCallback, Event.releaseAsync] :=
  C6_reaper_completion_order { execDuration := second, exitCode := 0, waitErr := none }
    (by decide)

/-- Claim C9: a `kubernetes_secrets` value without a `/` makes the
environment resolution non-total: the split produces a single part and the
unconditional index of the second component aborts (modelled as `none`)
instead of yielding a validation or resolution error. -/
theorem C9_secret_ref_not_total (st : SecretStore) (pns e v : String) (md : Metadata)
    (hv : ('/' : Char) ∉ v.data) (hm : md.kubernetesSecrets = [(e, v)]) :
    parseSecretRef pns v = none ∧ buildEnvVars (some st) pns md = none := by
  have hsplit : splitSlashN v.data 2 = [v.data] := by
    simp [splitSlashN, breakSlash_eq_none v.data hv]
  have hp : parseSecretRef pns v = none := by
    simp [parseSecretRef, hsplit]
  refine ⟨hp, ?_⟩
  simp [buildEnvVars, hm, buildEnvVarsLoop, hp]

/-- Witness for C9: the slash-less reference `nokey`. -/
theorem C9_secret_ref_not_total_witness :
    parseSecretRef "default" "nokey" = none ∧
      buildEnvVars (some (fun _ _ => Except.ok [])) "default"
        { mdSample with kubernetesSecrets := [("E", "nokey")] } = none :=
  C9_secret_ref_not_total (fun _ _ => Except.ok []) "default" "E" "nokey"
    { mdSample with kubernetesSecrets := [("E", "nokey")] }
    (by decide) rfl

/-- Claim C2: when no permit is available, the request is rejected with
429 and a `Retry-After` header equal to the wait-time estimate, with no
other side effect, no memo write, and no permit held; and the estimate is
the gathered 0.5-quantile of the execution-duration summary, or 60 when
the gather fails or no sample exists. -/
theorem C2_admission_rejection :
    (∀ env : HandleEnv, env.permits = 0 →
      handleModel env = some {
        resp := { status := 429, body := "Maximum concurrent test runs reached\n",
                  retryAfter := some (getWaitTime env.gather) }
        events := [Event.respond 429 "Maximum concurrent test runs reached\n"]
        memo := env.memo
        gateAfter := env.permits
        registered := 0
        acquired := false
        branch := Branch.rejected429 }) ∧
    getWaitTime none = 60 ∧
    getWaitTime (some []) = 60 ∧
    (∀ v : Int, getWaitTime
      (some [{ name := "launch_test_duration",
               metrics := [[{ quantile := (1 : ℚ) / 2, value := v }]] }]) = v) := by
  refine ⟨?_, rfl, rfl, ?_⟩
  · intro env h
    simp [handleModel, requestTestRunModel, h]
  · intro v
    simp [getWaitTime, findMedian, findMedianInMetrics, findMedianInQuantiles]

/-- Counterexample for C7: the claim quantifies over every output string
merely containing the canonical cloud line, but `FindStringSubmatch`
returns the leftmost match, so an earlier cloud line wins: this output
contains the canonical line yet extraction returns a different URL. -/
theorem C7_cloud_url_counterexample :
    goContains
        "output: cloud (https://app.k6.io/runs/1) output: cloud (https://app.k6.io/runs/1157843)"
        "output: cloud (https://app.k6.io/runs/1157843)" = true ∧
      getCloudURL
        "output: cloud (https://app.k6.io/runs/1) output: cloud (https://app.k6.io/runs/1157843)" =
        Except.ok "https://app.k6.io/runs/1" ∧
      ("https://app.k6.io/runs/1" : String) ≠ "https://app.k6.io/runs/1157843" := by
  refine ⟨by decide, rfl, by decide⟩

/-- Claim C7 (amended): if the canonical cloud line occurs in the output
and no result-URL match starts earlier in the string, extraction returns
`https://app.k6.io/runs/1157843`; an output with no match of either
pattern yields the fixed error; and on upload runs the extracted URL is
appended to the notification context as `\nCloud URL: <url>`. -/
theorem C7_cloud_url_extraction :
    (∀ p q : List Char,
      (∀ i, i < p.length →
        matchAt (List.drop i
          (p ++ ("output: cloud (https://app.k6.io/runs/1157843)".data ++ q))) = none) →
      getCloudURL (String.mk (p ++ ("output: cloud (https://app.k6.io/runs/1157843)".data ++ q))) =
        Except.ok "https://app.k6.io/runs/1157843") ∧
    (∀ s : String, findCloudURLAux s.data = none →
      getCloudURL s = Except.error "couldn't find the cloud URL in the output") ∧
    (∀ ctx buf url : String, getCloudURL buf = Except.ok url →
      attachCloudURL true ctx buf = Except.ok (ctx ++ "\nCloud URL: <" ++ url ++ ">")) := by
  refine ⟨?_, ?_, ?_⟩
  · intro p q h
    show (match findCloudURLAux
        (p ++ ("output: cloud (https://app.k6.io/runs/1157843)".data ++ q)) with
      | none => Except.error "couldn't find the cloud URL in the output"
      | some u => Except.ok (String.mk u)) = Except.ok "https://app.k6.io/runs/1157843"
    rw [findCloudURLAux_append _ _ h]
    rfl
  · intro s hs
    simp [getCloudURL, hs]
  · intro ctx buf url h
    simp [attachCloudURL, h]

/-- Witness for C7 at the canonical inputs. -/
theorem C7_cloud_url_extraction_witness :
    getCloudURL
        (String.mk ([] ++ ("output: cloud (https://app.k6.io/runs/1157843)".data ++ []))) =
        Except.ok "https://app.k6.io/runs/1157843" ∧
      getCloudURL "nope" = Except.error "couldn't find the cloud URL in the output" ∧
      attachCloudURL true "ctx" "output: cloud (https://app.k6.io/runs/1157843)" =
        Except.ok ("ctx" ++ "\nCloud URL: <" ++ "https://app.k6.io/runs/1157843" ++ ">") :=
  ⟨C7_cloud_url_extraction.1 [] [] (fun i hi => absurd hi (Nat.not_lt_zero i)),
   C7_cloud_url_extraction.2.1 "nope" rfl,
   C7_cloud_url_extraction.2.2 "ctx" "output: cloud (https://app.k6.io/runs/1157843)"
     "https://app.k6.io/runs/1157843" rfl⟩

/-- Claim C1: every request that acquires a permit releases it exactly
once over the listed branches — synchronously on the 400 paths and the
synchronous wait path, or through a single reaper registration whose
completion releases exactly one permit — so the available count returns to
its pre-run value. The cloud-URL-extraction branch is not among the
branches the claim lists and is excluded. -/
theorem C1_permit_balance (env : HandleEnv) (r : HandleRes)
    (h : handleModel env = some r) (hacq : r.acquired = true)
    (hbr : r.branch ≠ Branch.cloudURLError) :
    countEvent Event.releaseSync r.events + r.registered = 1 ∧
    r.gateAfter + r.registered = env.permits ∧
    (∀ run : K6RunInfo, countEvent Event.releaseAsync (waitForProcessModel run) = 1) := by
  have hreap : ∀ run : K6RunInfo,
      countEvent Event.releaseAsync (waitForProcessModel run) = 1 := by
    intro run
    by_cases hd : run.execDuration = 0 <;>
      simp [waitForProcessModel, trackExecutionDurationModel, countEvent_append, countEvent, hd]
  suffices hs : countEvent Event.releaseSync r.events + r.registered = 1 ∧
      r.gateAfter + r.registered = env.permits by
    exact ⟨hs.1, hs.2, hreap⟩
  simp only [handleModel] at h
  split at h
  · -- 429: no permit acquired, excluded by hacq
    simp only [Option.some.injEq] at h
    subst h
    simp at hacq
  · rename_i g hg
    have hg1 : env.permits = g + 1 := by
      unfold requestTestRunModel at hg
      split at hg
      · exact absurd hg (by simp)
      · simp at hg
        omega
    split at h
    · -- validation error
      simp only [Option.some.injEq] at h
      subst h
      simp [countEvent, releaseTestRunModel, hg1]
    · rename_i p hp
      split at h
      · -- memo hit
        simp only [failRequestModel, Option.some.injEq] at h
        subst h
        simp [countEvent, countEvent_append, releaseTestRunModel, hg1]
      · split at h
        · -- panic
          exact absurd h (by simp)
        · -- resolution error
          rename_i e lookupEvs heq
          simp only [failRequestModel, Option.some.injEq] at h
          subst h
          simp [countEvent, countEvent_append, releaseTestRunModel, hg1,
            countEvent_releaseSync_lookups _ _ _ _ _ heq]
        · rename_i v lookupEvs heq
          split at h
          · -- launch error
            simp only [failRequestModel, Option.some.injEq] at h
            subst h
            simp [countEvent, countEvent_append, releaseTestRunModel, hg1,
              countEvent_releaseSync_lookups _ _ _ _ _ heq]
          · rename_i run hrun
            split at h
            · -- readiness timeout
              simp only [failRequestModel, Option.some.injEq] at h
              subst h
              simp [countEvent, countEvent_append, releaseTestRunModel, hg1,
                countEvent_releaseSync_lookups _ _ _ _ _ heq,
                countEvent_releaseSync_sleeps env.bufAtCheck]
            · split at h
              · -- cloud URL error, excluded by hbr
                simp only [failRequestModel, Option.some.injEq] at h
                subst h
                simp at hbr
              · rename_i slackCtx hctx
                split at h
                · -- success async
                  simp only [Option.some.injEq] at h
                  subst h
                  simp [countEvent, countEvent_append, hg1,
                    countEvent_releaseSync_lookups _ _ _ _ _ heq,
                    countEvent_releaseSync_sleeps env.bufAtCheck]
                · split at h
                  · -- run failure
                    simp only [Option.some.injEq] at h
                    subst h
                    simp [countEvent, countEvent_append, releaseTestRunModel, hg1,
                      countEvent_releaseSync_lookups _ _ _ _ _ heq,
                      countEvent_releaseSync_sleeps env.bufAtCheck,
                      trackExecutionDurationModel]
                    by_cases hd : run.execDuration = 0 <;> simp [hd, countEvent]
                  · -- success sync
                    simp only [Option.some.injEq] at h
                    subst h
                    simp [countEvent, countEvent_append, releaseTestRunModel, hg1,
                      countEvent_releaseSync_lookups _ _ _ _ _ heq,
                      countEvent_releaseSync_sleeps env.bufAtCheck,
                      trackExecutionDurationModel]
                    by_cases hd : run.execDuration = 0 <;> simp [hd, countEvent]

/-- Witness for C1 at a benign synchronous run. -/
theorem C1_permit_balance_witness :
    countEvent Event.releaseSync resSample.events + resSample.registered = 1 ∧
      resSample.gateAfter + resSample.registered = envSample.permits :=
  ⟨(C1_permit_balance envSample resSample rfl rfl (by decide)).1,
   (C1_permit_balance envSample resSample rfl rfl (by decide)).2.1⟩

/-- Claim C3: a run whose output never shows the readiness marker fails
after exactly ten checks with a two-second sleep after each, responds 400
with `error while waiting for test to start: timeout` (with the captured
output appended after a newline when nonempty), sends the failure
notification with the captured output attached before responding, and
still registers the process with the reaper. -/
theorem C3_readiness_timeout (env : HandleEnv) (p : Payload) (run : K6RunInfo)
    (v : List (String × String)) (lookupEvs : List Event)
    (hperm : env.permits ≠ 0)
    (hp : env.parseResult = Except.ok p)
    (hmemo : listGet env.memo (key p) = none)
    (henv : buildEnvVars env.store p.nspace p.metadata = some (Except.ok v, lookupEvs))
    (hstart : env.startResult = Except.ok run)
    (hnever : ∀ i, i < 10 → goContains (env.bufAtCheck i) "output:" = false) :
    handleModel env = some {
      resp := { status := 400,
                body := (if env.bufEarly = "" then "error while waiting for test to start: timeout"
                         else "error while waiting for test to start: timeout" ++ "\n" ++
                           env.bufEarly) ++ "\n",
                retryAfter := none }
      events := Event.acquire :: (lookupEvs ++ Event.startCall ::
        (List.replicate 10 (Event.sleep (2 * second)) ++
          [Event.slackSend (statusMessage p emojiFailure "didn't start successfully")
             p.metadata.notificationContext,
           Event.slackFile "k6-results.txt" env.bufEarly,
           Event.register,
           Event.memoWrite (key p) env.now,
           Event.respond 400
             ((if env.bufEarly = "" then "error while waiting for test to start: timeout"
               else "error while waiting for test to start: timeout" ++ "\n" ++ env.bufEarly) ++
               "\n")]))
      memo := listSet env.memo (key p) env.now
      gateAfter := env.permits - 1
      registered := 1
      acquired := true
      branch := Branch.readinessTimeout } := by
  have hpoll : waitForOutputPathModel env.bufAtCheck =
      (false, List.replicate 10 (Event.sleep (2 * second))) := by
    have := waitForOutputPathAux_never env.bufAtCheck 10 0 fun j hj => by
      simpa using hnever j hj
    simpa [waitForOutputPathModel] using this
  simp [handleModel, requestTestRunModel, hperm, hp, hmemo, henv, hstart, hpoll,
    failRequestModel]

/-- Witness for C3 at a buffer that stays empty. -/
theorem C3_readiness_timeout_witness :
    handleModel envNeverReady = some {
      resp := { status := 400,
                body := (if envNeverReady.bufEarly = "" then
                           "error while waiting for test to start: timeout"
                         else "error while waiting for test to start: timeout" ++ "\n" ++
                           envNeverReady.bufEarly) ++ "\n",
                retryAfter := none }
      events := Event.acquire :: ([] ++ Event.startCall ::
        (List.replicate 10 (Event.sleep (2 * second)) ++
          [Event.slackSend (statusMessage pSample emojiFailure "didn't start successfully")
             pSample.metadata.notificationContext,
           Event.slackFile "k6-results.txt" envNeverReady.bufEarly,
           Event.register,
           Event.memoWrite (key pSample) envNeverReady.now,
           Event.respond 400
             ((if envNeverReady.bufEarly = "" then
                 "error while waiting for test to start: timeout"
               else "error while waiting for test to start: timeout" ++ "\n" ++
                 envNeverReady.bufEarly) ++ "\n")]))
      memo := listSet envNeverReady.memo (key pSample) envNeverReady.now
      gateAfter := envNeverReady.permits - 1
      registered := 1
      acquired := true
      branch := Branch.readinessTimeout } :=
  C3_readiness_timeout envNeverReady pSample runSample [] []
    (by decide) rfl rfl rfl rfl (fun i _ => rfl)

/-- Claim C10: every 400 failure response for a parsed payload —
including the not-enough-time rejection itself — writes the current time
as the run key's last-failure timestamp before responding, so each
suppressed retry restarts the suppression window. -/
theorem C10_failure_memo (env : HandleEnv) (p : Payload) (r : HandleRes)
    (h : handleModel env = some r) (hp : env.parseResult = Except.ok p)
    (h400 : r.resp.status = 400) :
    r.memo = listSet env.memo (key p) env.now ∧
    listGet r.memo (key p) = some env.now ∧
    (∃ l1 l2 l3 b, r.events =
      l1 ++ Event.memoWrite (key p) env.now :: (l2 ++ Event.respond 400 b :: l3)) := by
  obtain ⟨hm, hsplit⟩ := memo_after_parsed_400 env p r h hp h400
  exact ⟨hm, by rw [hm]; exact listGet_listSet _ _ _, hsplit⟩

/-- Witness for C10 at a failed launch. -/
theorem C10_failure_memo_witness :
    resLaunchFail.memo = listSet envLaunchFail.memo (key pSample) envLaunchFail.now ∧
      listGet resLaunchFail.memo (key pSample) = some envLaunchFail.now :=
  ⟨(C10_failure_memo envLaunchFail pSample resLaunchFail rfl rfl rfl).1,
   (C10_failure_memo envLaunchFail pSample resLaunchFail rfl rfl rfl).2.1⟩

/-- Claim C4: with a recorded failure for the same run key, a second
request issued before `min_failure_delay` has elapsed is rejected with 400
and body `not enough time since last failure` without starting a process;
issued after the delay it passes the memo check (and, with benign
collaborators, completes successfully). -/
theorem C4_min_failure_delay (env1 env2 : HandleEnv) (p1 p2 : Payload) (r1 : HandleRes)
    (h1 : handleModel env1 = some r1) (hp1 : env1.parseResult = Except.ok p1)
    (hfail : r1.resp.status = 400)
    (hp2 : env2.parseResult = Except.ok p2) (hkey : key p2 = key p1)
    (hmemo2 : env2.memo = r1.memo)
    (hperm2 : env2.permits ≠ 0) :
    (env2.now - env1.now < p2.metadata.minFailureDelay →
      handleModel env2 = some (failRequestModel env2 p2 "not enough time since last failure" ""
        false [Event.acquire] (env2.permits - 1) 0 Branch.memoHit) ∧
      (failRequestModel env2 p2 "not enough time since last failure" "" false [Event.acquire]
        (env2.permits - 1) 0 Branch.memoHit).resp.status = 400 ∧
      (failRequestModel env2 p2 "not enough time since last failure" "" false [Event.acquire]
        (env2.permits - 1) 0 Branch.memoHit).resp.body =
        "not enough time since last failure" ++ "\n" ∧
      countEvent Event.startCall
        (failRequestModel env2 p2 "not enough time since last failure" "" false [Event.acquire]
          (env2.permits - 1) 0 Branch.memoHit).events = 0) ∧
    (p2.metadata.minFailureDelay ≤ env2.now - env1.now →
      ∀ r2, handleModel env2 = some r2 → r2.branch ≠ Branch.memoHit) ∧
    (p2.metadata.minFailureDelay ≤ env2.now - env1.now →
      ∀ (v : List (String × String)) (lookupEvs : List Event) (run : K6RunInfo) (r2 : HandleRes),
        buildEnvVars env2.store p2.nspace p2.metadata = some (Except.ok v, lookupEvs) →
        env2.startResult = Except.ok run →
        run.waitErr = none →
        goContains (env2.bufAtCheck 0) "output:" = true →
        p2.metadata.uploadToCloud = false →
        p2.metadata.waitForResults = true →
        handleModel env2 = some r2 →
        r2.branch = Branch.successSync ∧ r2.resp.status = 200) := by
  have hm1 : r1.memo = listSet env1.memo (key p1) env1.now :=
    (memo_after_parsed_400 env1 p1 r1 h1 hp1 hfail).1
  have hm2 : listGet env2.memo (key p2) = some env1.now := by
    rw [hmemo2, hm1, hkey]
    exact listGet_listSet _ _ _
  refine ⟨?_, ?_, ?_⟩
  · intro hlt
    refine ⟨?_, rfl, by simp [failRequestModel], by simp [failRequestModel, countEvent]⟩
    simp [handleModel, requestTestRunModel, hperm2, hp2, hm2, hlt]
  · intro hge r2 h2
    have hnot : ¬ (env2.now - env1.now < p2.metadata.minFailureDelay) := Nat.not_lt.mpr hge
    simp only [handleModel, hp2, hm2] at h2
    split at h2
    · simp only [Option.some.injEq] at h2
      subst h2
      simp
    · split at h2
      · rename_i hdec
        exact absurd (of_decide_eq_true hdec) hnot
      · split at h2
        · exact absurd h2 (by simp)
        · simp only [failRequestModel, Option.some.injEq] at h2
          subst h2
          simp
        · split at h2
          · simp only [failRequestModel, Option.some.injEq] at h2
            subst h2
            simp
          · split at h2
            · simp only [failRequestModel, Option.some.injEq] at h2
              subst h2
              simp
            · split at h2
              · simp only [failRequestModel, Option.some.injEq] at h2
                subst h2
                simp
              · split at h2
                · simp only [Option.some.injEq] at h2
                  subst h2
                  simp
                · split at h2
                  · simp only [Option.some.injEq] at h2
                    subst h2
                    simp
                  · simp only [Option.some.injEq] at h2
                    subst h2
                    simp
  · intro hge v lookupEvs run r2 henv hstart hwait hbuf hupload hwfr h2
    have hnot : ¬ (env2.now - env1.now < p2.metadata.minFailureDelay) := Nat.not_lt.mpr hge
    have hpoll : waitForOutputPathModel env2.bufAtCheck = (true, []) := by
      simp [waitForOutputPathModel, waitForOutputPathAux, hbuf]
    rw [show handleModel env2 = some {
        resp := { status := 200, body := env2.bufLate, retryAfter := none }
        events := Event.acquire :: (lookupEvs ++ Event.startCall ::
          (Event.slackSend (statusMessage p2 emojiWarning "has started")
              p2.metadata.notificationContext ::
            Event.waitProc :: (trackExecutionDurationModel run ++
              [Event.slackFile "k6-results.txt" env2.bufLate,
               Event.slackUpdate (statusMessage p2 emojiSuccess "has succeeded")
                 p2.metadata.notificationContext,
               Event.respond 200 env2.bufLate, Event.releaseSync])))
        memo := env2.memo
        gateAfter := releaseTestRunModel (env2.permits - 1)
        registered := 0
        acquired := true
        branch := Branch.successSync } from by
      simp [handleModel, requestTestRunModel, hperm2, hp2, hm2, hnot, henv, hstart, hpoll,
        attachCloudURL, hupload, hwfr, hwait]] at h2
    simp only [Option.some.injEq] at h2
    subst h2
    exact ⟨rfl, rfl⟩

/-- Witness for C4: a retry one nanosecond after a recorded failure is
suppressed. -/
theorem C4_min_failure_delay_witness :
    handleModel envRetry = some (failRequestModel envRetry pSample
      "not enough time since last failure" "" false [Event.acquire]
      (envRetry.permits - 1) 0 Branch.memoHit) :=
  ((C4_min_failure_delay envLaunchFail envRetry pSample pSample resLaunchFail
    rfl rfl rfl rfl rfl rfl (by decide)).1 (by decide)).1

/-- Claim C8: validation defaults `upload_to_cloud` to false,
`wait_for_results` to true and `min_failure_delay` to two minutes when the
fields are textually absent; any textually present boolean, duration or
JSON-object-string field that does not parse makes validation fail; and a
request whose payload fails validation is answered 400 with no memo write,
no secret lookup and no process start. -/
theorem C8_payload_validation :
    (∀ (pd : String → Except String Nat) (pm : String → Except String (List (String × String)))
       (s ctx : String), s ≠ "" →
      validate pd pm
          { script := s, uploadToCloudString := "", waitForResultsString := "",
            slackChannelsString := "", notificationContext := ctx, minFailureDelayString := "",
            envVarsString := "", kubernetesSecretsString := "" } =
        Except.ok
          { script := s, uploadToCloud := false, waitForResults := true,
            slackChannels := [], notificationContext := ctx, minFailureDelay := 2 * minute,
            envVars := [], kubernetesSecrets := [] }) ∧
    (∀ (pd : String → Except String Nat) (pm : String → Except String (List (String × String)))
       (raw : RawMetadata),
      ((raw.uploadToCloudString ≠ "" ∧ goParseBool raw.uploadToCloudString = none) ∨
       (raw.waitForResultsString ≠ "" ∧ goParseBool raw.waitForResultsString = none) ∨
       (raw.minFailureDelayString ≠ "" ∧ ∀ d, pd raw.minFailureDelayString ≠ Except.ok d) ∨
       (raw.envVarsString ≠ "" ∧ ∀ m, pm raw.envVarsString ≠ Except.ok m) ∨
       (raw.kubernetesSecretsString ≠ "" ∧ ∀ m, pm raw.kubernetesSecretsString ≠ Except.ok m)) →
      ∀ md, validate pd pm raw ≠ Except.ok md) ∧
    (∀ (env : HandleEnv) (e : String), env.parseResult = Except.error e → env.permits ≠ 0 →
      handleModel env = some {
        resp := { status := 400, body := "error while validating request: " ++ e ++ "\n",
                  retryAfter := none }
        events := [Event.acquire,
          Event.respond 400 ("error while validating request: " ++ e ++ "\n"),
          Event.releaseSync]
        memo := env.memo
        gateAfter := releaseTestRunModel (env.permits - 1)
        registered := 0
        acquired := true
        branch := Branch.validationError }) := by
  refine ⟨?_, ?_, ?_⟩
  · intro pd pm s ctx hs
    simp [validate, hs]
  · intro pd pm raw hdisj md hok
    simp only [validate] at hok
    split at hok
    · simp at hok
    · split at hok
      · simp at hok
      · rename_i upload hup
        split at hok
        · simp at hok
        · rename_i wait hwait
          split at hok
          · simp at hok
          · rename_i delay hdelay
            split at hok
            · simp at hok
            · rename_i envv henvv
              split at hok
              · simp at hok
              · rename_i secv hsecv
                rcases hdisj with ⟨hne, hnone⟩ | ⟨hne, hnone⟩ | ⟨hne, hall⟩ |
                  ⟨hne, hall⟩ | ⟨hne, hall⟩
                · rw [if_neg hne, hnone] at hup
                  simp at hup
                · rw [if_neg hne, hnone] at hwait
                  simp at hwait
                · rw [if_neg hne] at hdelay
                  exact hall delay hdelay
                · rw [if_neg hne] at henvv
                  exact hall envv henvv
                · rw [if_neg hne] at hsecv
                  exact hall secv hsecv
  · intro env e hp hperm
    simp [handleModel, requestTestRunModel, hperm, hp]

/-- Witness for C8: default resolution, an unparseable boolean, and a
rejected unparseable payload. -/
theorem C8_payload_validation_witness :
    validate pdErr pmErr rawDefaults =
      Except.ok
        { script := "s", uploadToCloud := false, waitForResults := true,
          slackChannels := [], notificationContext := "c", minFailureDelay := 2 * minute,
          envVars := [], kubernetesSecrets := [] } ∧
    validate pdErr pmErr rawBadUpload ≠ Except.ok mdSample ∧
    handleModel envParseErr = some {
      resp := { status := 400, body := "error while validating request: " ++ "bad" ++ "\n",
                retryAfter := none }
      events := [Event.acquire,
        Event.respond 400 ("error while validating request: " ++ "bad" ++ "\n"),
        Event.releaseSync]
      memo := envParseErr.memo
      gateAfter := releaseTestRunModel (envParseErr.permits - 1)
      registered := 0
      acquired := true
      branch := Branch.validationError } :=
  ⟨C8_payload_validation.1 pdErr pmErr "s" "c" (by decide),
   C8_payload_validation.2.1 pdErr pmErr rawBadUpload (Or.inl ⟨by decide, rfl⟩) mdSample,
   C8_payload_validation.2.2 envParseErr "bad" rfl (by decide)⟩

/-- Witness for C2 at a saturated gate with an empty statistics registry. -/
theorem C2_admission_rejection_witness :
    handleModel envFull =
      some {
        resp := { status := 429, body := "Maximum concurrent test runs reached\n",
                  retryAfter := some (getWaitTime envFull.gather) }
        events := [Event.respond 429 "Maximum concurrent test runs reached\n"]
        memo := envFull.memo
        gateAfter := envFull.permits
        registered := 0
        acquired := false
        branch := Branch.rejected429 } :=
  C2_admission_rejection.1 envFull rfl

end Flagger
